import Mathlib

/-!
A shallow embedding of the element-construction layer of `teams-view-builder`
(`src/lib/Elements/index.js`) together with proofs about it.

JavaScript runtime values are modelled by `JSValue`; each builder takes a
record of `JSValue` fields (a missing property of the parameter object is the
same as an explicitly `undefined` one, exactly as in JavaScript destructuring)
and returns the object literal the source builds, as an ordered field list.
The global regex replacement `text.replace(/\@\<+([^\>[]+)>+/g, "<at>$1</at>")`
is embedded as an explicit scanner with the same backtracking semantics.
-/

namespace TeamsViewBuilder

/-- JavaScript runtime values, as far as the element builders observe them. -/
inductive JSValue where
  | undefined : JSValue
  | null : JSValue
  | bool : Bool → JSValue
  | num : Int → JSValue
  | str : String → JSValue
  | obj : List (String × JSValue) → JSValue
  | arr : List JSValue → JSValue

/-- JavaScript truthiness of a value. -/
def truthy : JSValue → Bool
  | .undefined => false
  | .null => false
  | .bool b => b
  | .num n => decide (n ≠ 0)
  | .str s => decide (s ≠ "")
  | .obj _ => true
  | .arr _ => true

/-- Does the value satisfy the JavaScript test `typeof v === "string"`? -/
def isStr : JSValue → Bool
  | .str _ => true
  | _ => false

/-- Is the value `undefined`? -/
def isUndefined : JSValue → Bool
  | .undefined => true
  | _ => false

/-- JavaScript destructuring default: the default value is used exactly when
the supplied value is `undefined`. -/
def orDefault (v d : JSValue) : JSValue := if isUndefined v then d else v

/-- Property lookup in an ordered field list (the object literals built by the
source have distinct keys, so the first binding is the only one). -/
def findField (k : String) : List (String × JSValue) → Option JSValue
  | [] => none
  | (k', v) :: rest => if k' = k then some v else findField k rest

/-- Property lookup on a JavaScript value: `none` means the property is absent
(which for the renderer is the same as `undefined`, but lets us state exactly
which keys an object literal carries). -/
def getField (k : String) : JSValue → Option JSValue
  | .obj fs => findField k fs
  | _ => none

/-! ## The mention rewrite

The source applies `text.replace(/\@\<+([^\>[]+)>+/g, "<at>$1</at>")`.
A match consists of a literal `@`, a greedy run of one or more `<`, a greedy
capture of one or more characters that are neither `>` nor `[`, and a greedy
run of one or more `>`.  Backtracking gives one extra case: when the `<` run is
immediately followed by `>`, the regex gives one `<` back to the capture group
(possible only when the run has length at least two), so the capture is `"<"`.
The replacement is global and scanning resumes after each match. -/

/-- One character of the capture class `[^>[]` of the mention regex. -/
def isContentChar (ch : Char) : Bool := decide (ch ≠ '>' ∧ ch ≠ '[')

/-- Is the character a literal `<`? -/
def isLt (ch : Char) : Bool := decide (ch = '<')

/-- Is the character a literal `>`? -/
def isGt (ch : Char) : Bool := decide (ch = '>')

/-- Attempts to match the mention regex right after a literal `@`, returning
the capture group and the characters following the whole match. -/
def matchMentionAt (t : List Char) : Option (List Char × List Char) :=
  if (t.takeWhile isLt).length = 0 then none
  else if ((t.dropWhile isLt).takeWhile isContentChar).length = 0 then
    match t.dropWhile isLt with
    | '>' :: _ =>
      if 2 ≤ (t.takeWhile isLt).length then
        some (['<'], (t.dropWhile isLt).dropWhile isGt)
      else none
    | _ => none
  else
    match (t.dropWhile isLt).dropWhile isContentChar with
    | '>' :: _ =>
      some ((t.dropWhile isLt).takeWhile isContentChar,
        ((t.dropWhile isLt).dropWhile isContentChar).dropWhile isGt)
    | _ => none

/-- Attempts to match the mention regex at the head of the character list. -/
def matchMention : List Char → Option (List Char × List Char)
  | [] => none
  | ch :: t => if ch = '@' then matchMentionAt t else none

/-- The characters of the opening replacement tag. -/
def atOpen : List Char := '<' :: 'a' :: 't' :: '>' :: []

/-- The characters of the closing replacement tag. -/
def atClose : List Char := '<' :: '/' :: 'a' :: 't' :: '>' :: []

/-- The full replacement text for a capture. -/
def atTag (c : List Char) : List Char := atOpen ++ (c ++ atClose)

/-- Fuelled left-to-right global replacement; with fuel at least the length of
the list this is exactly the behaviour of `String.prototype.replace` with the
global mention regex. -/
def rewriteGo : Nat → List Char → List Char
  | 0, l => l
  | _ + 1, [] => []
  | fuel + 1, ch :: rest =>
    match matchMention (ch :: rest) with
    | some (cap, after) => atOpen ++ (cap ++ (atClose ++ rewriteGo fuel after))
    | none => ch :: rewriteGo fuel rest

/-- Global mention replacement on a character list. -/
def rewriteAux (l : List Char) : List Char := rewriteGo l.length l

/-- Global mention replacement on a string:
`s.replace(/\@\<+([^\>[]+)>+/g, "<at>$1</at>")`. -/
def mentionRewrite (s : String) : String := ⟨rewriteAux s.data⟩

/-- Modelled from the spec: the external `EmojiService.toUnicodeVersion`
(`src/lib/utils/EmojiService` is not under `src/`); the spec treats it as a
pure total `string -> string` transform, injected as a dependency. -/
def EmojiConverter : Type := String → String

/-- The text preparation shared by `textBlock` and `textRun`: when the text is
a truthy string, the mention rewrite followed by the emoji conversion;
otherwise the value passes through unchanged. -/
def prepareText (emoji : EmojiConverter) (text : JSValue) : JSValue :=
  if truthy text && isStr text then
    match text with
    | .str s => .str (emoji (mentionRewrite s))
    | v => v
  else text

/-! ## Enum registries (frozen object literals in the source) -/

/-- Enum for TextBlock colors. -/
def TextColors : List (String × String) :=
  [("default", "default"), ("black", "dark"), ("grey", "light"),
   ("blue", "accent"), ("green", "good"), ("yellow", "warning"),
   ("red", "attention")]

/-- Enum for Text FontTypes. -/
def TextFontTypes : List (String × String) :=
  [("default", "default"), ("monospace", "monospace")]

/-- Enum for Text Sizes. -/
def TextSizes : List (String × String) :=
  [("default", "default"), ("small", "small"), ("medium", "medium"),
   ("large", "large"), ("xl", "extraLarge")]

/-- Enum for Text Weights. -/
def TextWeights : List (String × String) :=
  [("default", "default"), ("lighter", "lighter"), ("bolder", "bolder")]

/-- Enum for Text Styles. -/
def TextStyles : List (String × String) :=
  [("default", "default"), ("heading", "heading")]

/-- `this.TextStyles.default`, the default for a text block's `style`. -/
def TextStylesDefault : String := "default"

/-- Enum for Image Sizes. -/
def ImageSizes : List (String × String) :=
  [("small", "small"), ("medium", "medium"), ("large", "large"),
   ("stretch", "stretch"), ("auto", "auto")]

/-- Enum for Image Styles. -/
def ImageStyles : List (String × String) :=
  [("default", "default"), ("rounded", "person")]

/-- Modelled from the spec: `this.HAlign.left` comes from the shared `Base`
component (`src/lib/Base` is not under `src/`); the spec documents the
resulting default as the literal `"left"`. -/
def HAlignLeft : String := "left"

/-! ## Builder parameter records

Each field defaults to `JSValue.undefined`: omitting a property of the parameter
object and passing `undefined` explicitly are indistinguishable to the
JavaScript destructuring the builders use. -/

/-- Parameters of `textBlock`. -/
structure TextBlockParams where
  text : JSValue := .undefined
  color : JSValue := .undefined
  fontType : JSValue := .undefined
  horizontalAlignment : JSValue := .undefined
  isSubtle : JSValue := .undefined
  maxLines : JSValue := .undefined
  size : JSValue := .undefined
  weight : JSValue := .undefined
  wrap : JSValue := .undefined
  style : JSValue := .undefined
  height : JSValue := .undefined
  separator : JSValue := .undefined
  spacing : JSValue := .undefined
  id : JSValue := .undefined
  isVisible : JSValue := .undefined

/-- Parameters of `image`. -/
structure ImageParams where
  url : JSValue := .undefined
  altText : JSValue := .undefined
  backgroundColor : JSValue := .undefined
  height : JSValue := .undefined
  horizontalAlignment : JSValue := .undefined
  selectAction : JSValue := .undefined
  size : JSValue := .undefined
  style : JSValue := .undefined
  width : JSValue := .undefined
  separator : JSValue := .undefined
  spacing : JSValue := .undefined
  id : JSValue := .undefined
  isVisible : JSValue := .undefined
  allowZoom : JSValue := .undefined

/-- Parameters of `media`. -/
structure MediaParams where
  sources : JSValue := .undefined
  poster : JSValue := .undefined
  altText : JSValue := .undefined
  height : JSValue := .undefined
  separator : JSValue := .undefined
  spacing : JSValue := .undefined
  id : JSValue := .undefined
  isVisible : JSValue := .undefined

/-- Parameters of `mediaSource`. -/
structure MediaSourceParams where
  mimeType : JSValue := .undefined
  url : JSValue := .undefined

/-- Parameters of `richTextBlock`. -/
structure RichTextBlockParams where
  inlines : JSValue := .undefined
  horizontalAlignment : JSValue := .undefined
  height : JSValue := .undefined
  separator : JSValue := .undefined
  spacing : JSValue := .undefined
  id : JSValue := .undefined
  isVisible : JSValue := .undefined

/-- Parameters of `textRun`. -/
structure TextRunParams where
  text : JSValue := .undefined
  color : JSValue := .undefined
  fontType : JSValue := .undefined
  highlight : JSValue := .undefined
  isSubtle : JSValue := .undefined
  italic : JSValue := .undefined
  selectAction : JSValue := .undefined
  strikethrough : JSValue := .undefined
  underline : JSValue := .undefined
  size : JSValue := .undefined
  weight : JSValue := .undefined

/-- A user-identity record as destructured by `userIcon` and mapped over by
`userIconSet`: property access on a missing sub-field yields `undefined`. -/
structure UserIdentity where
  id : JSValue := .undefined
  name : JSValue := .undefined
  email : JSValue := .undefined

/-! ## Element builders -/

/-- `textBlock` of the source. -/
def textBlock (emoji : EmojiConverter) (p : TextBlockParams) : JSValue :=
  .obj [("type", .str "TextBlock"),
        ("text", prepareText emoji p.text),
        ("color", p.color),
        ("fontType", p.fontType),
        ("horizontalAlignment", orDefault p.horizontalAlignment (.str HAlignLeft)),
        ("isSubtle", orDefault p.isSubtle (.bool false)),
        ("maxLines", p.maxLines),
        ("size", p.size),
        ("weight", p.weight),
        ("wrap", orDefault p.wrap (.bool true)),
        ("style", orDefault p.style (.str TextStylesDefault)),
        ("height", p.height),
        ("separator", orDefault p.separator (.bool false)),
        ("spacing", p.spacing),
        ("id", p.id),
        ("isVisible", orDefault p.isVisible (.bool true))]

/-- `image` of the source. -/
def image (p : ImageParams) : JSValue :=
  .obj [("type", .str "Image"),
        ("url", p.url),
        ("altText", orDefault p.altText (.str "image")),
        ("backgroundColor", p.backgroundColor),
        ("height", p.height),
        ("horizontalAlignment", orDefault p.horizontalAlignment (.str HAlignLeft)),
        ("selectAction", p.selectAction),
        ("size", p.size),
        ("style", p.style),
        ("width", p.width),
        ("separator", orDefault p.separator (.bool false)),
        ("spacing", p.spacing),
        ("id", p.id),
        ("isVisible", orDefault p.isVisible (.bool true)),
        ("msTeams",
          if truthy (orDefault p.allowZoom (.bool false))
          then .obj [("allowExpand", .bool true)]
          else .obj [])]

/-- `media` of the source. -/
def media (p : MediaParams) : JSValue :=
  .obj [("type", .str "Media"),
        ("sources", p.sources),
        ("poster", p.poster),
        ("altText", p.altText),
        ("height", p.height),
        ("separator", orDefault p.separator (.bool false)),
        ("spacing", p.spacing),
        ("id", p.id),
        ("isVisible", orDefault p.isVisible (.bool true))]

/-- `mediaSource` of the source: `return { mimeType, url };`. -/
def mediaSource (p : MediaSourceParams) : JSValue :=
  .obj [("mimeType", p.mimeType), ("url", p.url)]

/-- `richTextBlock` of the source. -/
def richTextBlock (p : RichTextBlockParams) : JSValue :=
  .obj [("type", .str "RichTextBlock"),
        ("inlines", p.inlines),
        ("horizontalAlignment", orDefault p.horizontalAlignment (.str HAlignLeft)),
        ("height", p.height),
        ("separator", orDefault p.separator (.bool false)),
        ("spacing", p.spacing),
        ("id", p.id),
        ("isVisible", orDefault p.isVisible (.bool true))]

/-- `textRun` of the source. -/
def textRun (emoji : EmojiConverter) (p : TextRunParams) : JSValue :=
  .obj [("type", .str "TextRun"),
        ("text", prepareText emoji p.text),
        ("color", p.color),
        ("fontType", p.fontType),
        ("highlight", orDefault p.highlight (.bool false)),
        ("isSubtle", orDefault p.isSubtle (.bool false)),
        ("italic", orDefault p.italic (.bool false)),
        ("selectAction", p.selectAction),
        ("strikethrough", orDefault p.strikethrough (.bool false)),
        ("underline", orDefault p.underline (.bool false)),
        ("size", p.size),
        ("weight", p.weight)]

/-- The renamed triple `{id, displayName, userPrincipalName}`. -/
def renameUser (user : UserIdentity) : JSValue :=
  .obj [("id", user.id), ("displayName", user.name),
        ("userPrincipalName", user.email)]

/-- `userIcon` of the source. -/
def userIcon (user : UserIdentity) : JSValue :=
  .obj [("type", .str "Component"),
        ("name", .str "graph.microsoft.com/user"),
        ("view", .str "compact"),
        ("properties", renameUser user)]

/-- `userIconSet` of the source. -/
def userIconSet (users : List UserIdentity) : JSValue :=
  .obj [("type", .str "Component"),
        ("name", .str "graph.microsoft.com/users"),
        ("view", .str "compact"),
        ("properties", .obj [("users", .arr (users.map renameUser))])]

/-- Number of positions of the list at which the pattern occurs. -/
def startsWithChars : List Char → List Char → Bool
  | [], _ => true
  | _ :: _, [] => false
  | p :: ps, ch :: rest => decide (p = ch) && startsWithChars ps rest

/-- Counts the positions at which the pattern occurs in the list. -/
def countOcc (pat : List Char) : List Char → Nat
  | [] => 0
  | ch :: rest =>
    (if startsWithChars pat (ch :: rest) then 1 else 0) + countOcc pat rest

/-! ## Basic lemmas about the scanner -/

theorem dropWhile_length_le {α : Type} (p : α → Bool) (l : List α) :
    (l.dropWhile p).length ≤ l.length := by
  induction l with
  | nil => simp
  | cons a l ih =>
    rw [List.dropWhile_cons]
    split
    · exact Nat.le_succ_of_le ih
    · exact Nat.le_refl _

theorem matchMentionAt_length {t cap rest : List Char}
    (h : matchMentionAt t = some (cap, rest)) : rest.length ≤ t.length := by
  have key : rest = (t.dropWhile isLt).dropWhile isGt ∨
      rest = ((t.dropWhile isLt).dropWhile isContentChar).dropWhile isGt := by
    unfold matchMentionAt at h
    split at h
    · exact Option.noConfusion h
    · split at h
      · split at h
        · split at h
          · simp only [Option.some.injEq, Prod.mk.injEq] at h
            exact Or.inl h.2.symm
          · exact Option.noConfusion h
        · exact Option.noConfusion h
      · split at h
        · simp only [Option.some.injEq, Prod.mk.injEq] at h
          exact Or.inr h.2.symm
        · exact Option.noConfusion h
  rcases key with hk | hk <;> subst hk
  · exact Nat.le_trans (dropWhile_length_le _ _) (dropWhile_length_le _ _)
  · exact Nat.le_trans (dropWhile_length_le _ _)
      (Nat.le_trans (dropWhile_length_le _ _) (dropWhile_length_le _ _))

theorem matchMention_length {l cap rest : List Char}
    (h : matchMention l = some (cap, rest)) : rest.length < l.length := by
  cases l with
  | nil => exact absurd h (by simp [matchMention])
  | cons ch t =>
    rw [matchMention] at h
    split at h
    · exact Nat.lt_succ_of_le (matchMentionAt_length h)
    · exact absurd h (by simp)

theorem rewriteGo_nil : ∀ fuel, rewriteGo fuel [] = []
  | 0 => rfl
  | _ + 1 => rfl

theorem rewriteGo_congr : ∀ f1 f2 (l : List Char), l.length ≤ f1 → l.length ≤ f2 →
    rewriteGo f1 l = rewriteGo f2 l := by
  intro f1
  induction f1 with
  | zero =>
    intro f2 l h1 _
    have hl : l = [] := List.eq_nil_of_length_eq_zero (Nat.le_zero.mp h1)
    subst hl
    rw [rewriteGo_nil, rewriteGo_nil]
  | succ f1 ih =>
    intro f2 l h1 h2
    cases l with
    | nil => rw [rewriteGo_nil, rewriteGo_nil]
    | cons ch rest =>
      cases f2 with
      | zero => simp at h2
      | succ g =>
        simp only [List.length_cons] at h1 h2
        cases hm : matchMention (ch :: rest) with
        | some capAfter =>
          obtain ⟨cap, after⟩ := capAfter
          have hlen := matchMention_length hm
          simp only [List.length_cons] at hlen
          simp only [rewriteGo, hm]
          rw [ih g after (by omega) (by omega)]
        | none =>
          simp only [rewriteGo, hm]
          rw [ih g rest (by omega) (by omega)]

theorem rewriteAux_cons_some {ch : Char} {rest cap after : List Char}
    (h : matchMention (ch :: rest) = some (cap, after)) :
    rewriteAux (ch :: rest) = atOpen ++ (cap ++ (atClose ++ rewriteAux after)) := by
  have hlen := matchMention_length h
  simp only [List.length_cons] at hlen
  simp only [rewriteAux, List.length_cons, rewriteGo, h]
  rw [rewriteGo_congr rest.length after.length after (by omega) (Nat.le_refl _)]

theorem rewriteAux_cons_none {ch : Char} {rest : List Char}
    (h : matchMention (ch :: rest) = none) :
    rewriteAux (ch :: rest) = ch :: rewriteAux rest := by
  simp only [rewriteAux, List.length_cons, rewriteGo, h]

theorem matchMention_cons_of_ne {ch : Char} {t : List Char} (h : ch ≠ '@') :
    matchMention (ch :: t) = none := by
  simp [matchMention, h]

theorem rewriteAux_append_of_no_at (a l : List Char) (ha : ∀ ch ∈ a, ch ≠ '@') :
    rewriteAux (a ++ l) = a ++ rewriteAux l := by
  induction a with
  | nil => simp
  | cons x a ih =>
    have hx : x ≠ '@' := ha x (by simp)
    have hstep := rewriteAux_cons_none (matchMention_cons_of_ne hx (t := a ++ l))
    simp only [List.cons_append, hstep]
    rw [ih (fun ch hch => ha ch (by simp [hch]))]

theorem rewriteAux_nil : rewriteAux [] = [] := rfl

theorem rewriteAux_of_no_at (a : List Char) (ha : ∀ ch ∈ a, ch ≠ '@') :
    rewriteAux a = a := by
  have h := rewriteAux_append_of_no_at a [] ha
  simpa [rewriteAux_nil] using h

theorem takeWhile_append_eq {α : Type} (p : α → Bool) (xs ys : List α)
    (h1 : ∀ x ∈ xs, p x = true)
    (h2 : ∀ y, ys.head? = some y → p y = false) :
    (xs ++ ys).takeWhile p = xs ∧ (xs ++ ys).dropWhile p = ys := by
  induction xs with
  | nil =>
    simp only [List.nil_append]
    cases ys with
    | nil => simp
    | cons y ys' =>
      have hy := h2 y rfl
      constructor
      · simp [List.takeWhile_cons, hy]
      · simp [List.dropWhile_cons, hy]
  | cons x xs ih =>
    have hx := h1 x (by simp)
    have ih' := ih (fun a ha => h1 a (by simp [ha]))
    constructor
    · simp [List.takeWhile_cons, hx, ih'.1]
    · simp [List.dropWhile_cons, hx, ih'.2]

/-- A fully structured occurrence of the mention pattern: after the `@`, a
maximal run of `<`, then a maximal nonempty run of capture-class characters,
then a maximal run of `>`.  The scanner matches it and captures exactly the
middle run. -/
theorem matchMentionAt_run (j k : Nat) (c rest : List Char)
    (hj : 1 ≤ j) (hk : 1 ≤ k) (hc : c ≠ [])
    (hcc : ∀ ch ∈ c, isContentChar ch = true)
    (hch : c.head? ≠ some '<')
    (hrest : rest.head? ≠ some '>') :
    matchMentionAt (List.replicate j '<' ++ (c ++ (List.replicate k '>' ++ rest)))
      = some (c, rest) := by
  obtain ⟨c0, c', rfl⟩ : ∃ c0 c', c = c0 :: c' := by
    cases c with
    | nil => exact absurd rfl hc
    | cons c0 c' => exact ⟨c0, c', rfl⟩
  obtain ⟨k', rfl⟩ : ∃ k', k = k' + 1 := ⟨k - 1, by omega⟩
  have hc0 : c0 ≠ '<' := fun hh => hch (by simp [hh])
  have span1 := takeWhile_append_eq isLt (List.replicate j '<')
      ((c0 :: c') ++ (List.replicate (k' + 1) '>' ++ rest))
      (fun x hx => by simp [isLt, List.eq_of_mem_replicate hx])
      (fun y hy => by
        simp only [List.cons_append, List.head?_cons, Option.some.injEq] at hy
        simp [isLt, ← hy, hc0])
  have span2 := takeWhile_append_eq isContentChar (c0 :: c')
      (List.replicate (k' + 1) '>' ++ rest)
      hcc
      (fun y hy => by
        rw [List.replicate_succ, List.cons_append, List.head?_cons] at hy
        injection hy with hy
        simp [isContentChar, ← hy])
  have span3 := takeWhile_append_eq isGt (List.replicate (k' + 1) '>') rest
      (fun x hx => by simp [isGt, List.eq_of_mem_replicate hx])
      (fun y hy => by
        cases hg : isGt y with
        | false => rfl
        | true =>
          simp only [isGt, decide_eq_true_eq] at hg
          exact absurd (hg ▸ hy) hrest)
  unfold matchMentionAt
  rw [span1.1, span1.2, span2.1, span2.2]
  rw [List.length_replicate]
  rw [if_neg (by omega)]
  rw [if_neg (by simp)]
  rw [List.replicate_succ, List.cons_append]
  show some (c0 :: c', List.dropWhile isGt ('>' :: (List.replicate k' '>' ++ rest))) = _
  rw [← List.cons_append, ← List.replicate_succ, span3.2]

theorem matchMention_run (j k : Nat) (c rest : List Char)
    (hj : 1 ≤ j) (hk : 1 ≤ k) (hc : c ≠ [])
    (hcc : ∀ ch ∈ c, isContentChar ch = true)
    (hch : c.head? ≠ some '<')
    (hrest : rest.head? ≠ some '>') :
    matchMention ('@' :: (List.replicate j '<' ++ (c ++ (List.replicate k '>' ++ rest))))
      = some (c, rest) := by
  rw [matchMention]
  rw [if_pos rfl]
  exact matchMentionAt_run j k c rest hj hk hc hcc hch hrest

/-- A marked mention run: `@`, `lts` opening angle brackets, the capture, and
`gts` closing angle brackets. -/
def mentionRun (lts : Nat) (c : List Char) (gts : Nat) : List Char :=
  '@' :: (List.replicate lts '<' ++ (c ++ List.replicate gts '>'))

theorem rewriteAux_mention (j k : Nat) (c rest : List Char)
    (hj : 1 ≤ j) (hk : 1 ≤ k) (hc : c ≠ [])
    (hcc : ∀ ch ∈ c, isContentChar ch = true)
    (hch : c.head? ≠ some '<')
    (hrest : rest.head? ≠ some '>') :
    rewriteAux (mentionRun j c k ++ rest) = atTag c ++ rewriteAux rest := by
  have hm := matchMention_run j k c rest hj hk hc hcc hch hrest
  have hstep := rewriteAux_cons_some hm
  simp only [mentionRun, List.cons_append, List.append_assoc]
  rw [hstep]
  simp [atTag, List.append_assoc]

theorem head?_append_ne {b x : List Char} {ch : Char} (hb : b.head? ≠ some ch)
    (hx : x.head? ≠ some ch) : (b ++ x).head? ≠ some ch := by
  cases b with
  | nil => simpa using hx
  | cons y b' => simpa using hb

/-- Rewriting a text made of an inert part, a mention, and an inert tail. -/
theorem rewrite_one_mention (a d c : List Char) (j k : Nat)
    (ha : ∀ ch ∈ a, ch ≠ '@') (hd : ∀ ch ∈ d, ch ≠ '@')
    (hdh : d.head? ≠ some '>')
    (hj : 1 ≤ j) (hk : 1 ≤ k) (hc : c ≠ [])
    (hcc : ∀ ch ∈ c, isContentChar ch = true)
    (hch : c.head? ≠ some '<') :
    rewriteAux (a ++ (mentionRun j c k ++ d)) = a ++ (atTag c ++ d) := by
  rw [rewriteAux_append_of_no_at a _ ha]
  rw [rewriteAux_mention j k c d hj hk hc hcc hch hdh]
  rw [rewriteAux_of_no_at d hd]

/-- Rewriting a text with two independent mentions: both are rewritten, in
their original order, with the surrounding inert text untouched. -/
theorem rewrite_two_mentions (a b d c₁ c₂ : List Char) (j₁ k₁ j₂ k₂ : Nat)
    (ha : ∀ ch ∈ a, ch ≠ '@') (hb : ∀ ch ∈ b, ch ≠ '@') (hd : ∀ ch ∈ d, ch ≠ '@')
    (hbh : b.head? ≠ some '>') (hdh : d.head? ≠ some '>')
    (hj₁ : 1 ≤ j₁) (hk₁ : 1 ≤ k₁) (hj₂ : 1 ≤ j₂) (hk₂ : 1 ≤ k₂)
    (hc₁ : c₁ ≠ []) (hcc₁ : ∀ ch ∈ c₁, isContentChar ch = true)
    (hch₁ : c₁.head? ≠ some '<')
    (hc₂ : c₂ ≠ []) (hcc₂ : ∀ ch ∈ c₂, isContentChar ch = true)
    (hch₂ : c₂.head? ≠ some '<') :
    rewriteAux (a ++ (mentionRun j₁ c₁ k₁ ++ (b ++ (mentionRun j₂ c₂ k₂ ++ d))))
      = a ++ (atTag c₁ ++ (b ++ (atTag c₂ ++ d))) := by
  have hrest1 : (b ++ (mentionRun j₂ c₂ k₂ ++ d)).head? ≠ some '>' :=
    head?_append_ne hbh (by simp [mentionRun])
  rw [rewriteAux_append_of_no_at a _ ha]
  rw [rewriteAux_mention j₁ k₁ c₁ _ hj₁ hk₁ hc₁ hcc₁ hch₁ hrest1]
  rw [rewriteAux_append_of_no_at b _ hb]
  rw [rewriteAux_mention j₂ k₂ c₂ d hj₂ hk₂ hc₂ hcc₂ hch₂ hdh]
  rw [rewriteAux_of_no_at d hd]

/-! ## Text preparation lemmas -/

theorem String_mk_ne_empty {l : List Char} (h : l ≠ []) : (⟨l⟩ : String) ≠ "" :=
  fun hh => h (by simpa using congrArg String.data hh)

theorem prepareText_str (emoji : EmojiConverter) (l : List Char) (h : l ≠ []) :
    prepareText emoji (.str ⟨l⟩) = .str (emoji (mentionRewrite ⟨l⟩)) := by
  have hcond : (truthy (JSValue.str ⟨l⟩) && isStr (JSValue.str ⟨l⟩)) = true := by
    simp [truthy, isStr]
    exact String_mk_ne_empty h
  unfold prepareText
  rw [if_pos hcond]

theorem prepareText_passthrough (emoji : EmojiConverter) (v : JSValue)
    (h : ∀ s : String, v = .str s → s = "") : prepareText emoji v = v := by
  cases v with
  | str s =>
    have hs := h s rfl
    subst hs
    rfl
  | undefined => rfl
  | null => rfl
  | bool b => simp [prepareText, truthy, isStr]
  | num n => simp [prepareText, truthy, isStr]
  | obj fs => simp [prepareText, truthy, isStr]
  | arr xs => simp [prepareText, truthy, isStr]

/-! ## Field access on builder outputs -/

theorem textBlock_text_eq (emoji : EmojiConverter) (p : TextBlockParams) :
    getField "text" (textBlock emoji p) = some (prepareText emoji p.text) := rfl

theorem textRun_text_eq (emoji : EmojiConverter) (p : TextRunParams) :
    getField "text" (textRun emoji p) = some (prepareText emoji p.text) := rfl

theorem orDefault_of_ne_undefined {v : JSValue} (d : JSValue) (h : v ≠ .undefined) :
    orDefault v d = v := by
  unfold orDefault
  rw [if_neg]
  intro hu
  cases v
  case undefined => exact h rfl
  all_goals simp [isUndefined] at hu

theorem isContentChar_of {ch : Char} (h : ch ≠ '>' ∧ ch ≠ '[') :
    isContentChar ch = true := by
  simpa [isContentChar] using h

/-! ## Claims -/

/-- C1: in `textBlock` and `textRun`, every occurrence of `@<` followed by a
run of capture-class characters (neither `>` nor `[`, not led by a further
`<`) followed by one or more `>` is rewritten to `<at>CONTENT</at>` with the
captured inner text; the replacement is global and order-preserving: a text
with one marker and a text with two independent markers are both rewritten in
place, `"@<Jane Doe>"` produces `"<at>Jane Doe</at>"`, and that output
contains the tag exactly once.  Stated for any emoji converter that leaves
already-rewritten text unchanged, as the external one does on text without
emoji shorthand. -/
theorem C1_mention_rewrite (emoji : EmojiConverter) (hemoji : ∀ s, emoji s = s)
    (a b d c₁ c₂ : List Char) (k₁ k₂ : Nat)
    (ha : ∀ ch ∈ a, ch ≠ '@') (hb : ∀ ch ∈ b, ch ≠ '@') (hd : ∀ ch ∈ d, ch ≠ '@')
    (hbh : b.head? ≠ some '>') (hdh : d.head? ≠ some '>')
    (hk₁ : 1 ≤ k₁) (hk₂ : 1 ≤ k₂)
    (hc₁ : c₁ ≠ []) (hcc₁ : ∀ ch ∈ c₁, ch ≠ '>' ∧ ch ≠ '[')
    (hch₁ : c₁.head? ≠ some '<')
    (hc₂ : c₂ ≠ []) (hcc₂ : ∀ ch ∈ c₂, ch ≠ '>' ∧ ch ≠ '[')
    (hch₂ : c₂.head? ≠ some '<') :
    getField "text" (textBlock emoji
        { text := .str ⟨a ++ (mentionRun 1 c₁ k₁ ++ (b ++ (mentionRun 1 c₂ k₂ ++ d)))⟩ })
      = some (.str ⟨a ++ (atTag c₁ ++ (b ++ (atTag c₂ ++ d)))⟩)
    ∧ getField "text" (textRun emoji
        { text := .str ⟨a ++ (mentionRun 1 c₁ k₁ ++ d)⟩ })
      = some (.str ⟨a ++ (atTag c₁ ++ d)⟩)
    ∧ mentionRewrite "@<Jane Doe>" = "<at>Jane Doe</at>"
    ∧ countOcc ("<at>Jane Doe</at>".data) ((mentionRewrite "@<Jane Doe>").data) = 1 := by
  have hcc₁' : ∀ ch ∈ c₁, isContentChar ch = true :=
    fun ch hm => isContentChar_of (hcc₁ ch hm)
  have hcc₂' : ∀ ch ∈ c₂, isContentChar ch = true :=
    fun ch hm => isContentChar_of (hcc₂ ch hm)
  have hne2 : a ++ (mentionRun 1 c₁ k₁ ++ (b ++ (mentionRun 1 c₂ k₂ ++ d))) ≠ ([] : List Char) := by
    simp [mentionRun]
  have hne1 : a ++ (mentionRun 1 c₁ k₁ ++ d) ≠ ([] : List Char) := by
    simp [mentionRun]
  refine ⟨?_, ?_, by decide, by decide⟩
  · show some (prepareText emoji
        (.str ⟨a ++ (mentionRun 1 c₁ k₁ ++ (b ++ (mentionRun 1 c₂ k₂ ++ d)))⟩)) = _
    rw [prepareText_str emoji _ hne2, hemoji]
    show some (JSValue.str
        ⟨rewriteAux (a ++ (mentionRun 1 c₁ k₁ ++ (b ++ (mentionRun 1 c₂ k₂ ++ d))))⟩) = _
    rw [rewrite_two_mentions a b d c₁ c₂ 1 k₁ 1 k₂ ha hb hd hbh hdh
      (Nat.le_refl 1) hk₁ (Nat.le_refl 1) hk₂ hc₁ hcc₁' hch₁ hc₂ hcc₂' hch₂]
  · show some (prepareText emoji (.str ⟨a ++ (mentionRun 1 c₁ k₁ ++ d)⟩)) = _
    rw [prepareText_str emoji _ hne1, hemoji]
    show some (JSValue.str ⟨rewriteAux (a ++ (mentionRun 1 c₁ k₁ ++ d))⟩) = _
    rw [rewrite_one_mention a d c₁ 1 k₁ ha hd hdh (Nat.le_refl 1) hk₁ hc₁ hcc₁' hch₁]

/-- C1 witness: two mentions, rewritten in order. -/
theorem C1_mention_rewrite_witness :
    getField "text" (textBlock (fun s => s)
        { text := .str ⟨[] ++ (mentionRun 1 ("Jane Doe".data) 1 ++
            ((' ' :: 'y' :: ' ' :: []) ++ (mentionRun 1 ("Bob".data) 1 ++ [])))⟩ })
      = some (.str ⟨[] ++ (atTag ("Jane Doe".data) ++
          ((' ' :: 'y' :: ' ' :: []) ++ (atTag ("Bob".data) ++ [])))⟩) :=
  (C1_mention_rewrite (fun s => s) (fun _ => rfl) [] (' ' :: 'y' :: ' ' :: []) []
    ("Jane Doe".data) ("Bob".data) 1 1 (by decide) (by decide) (by decide)
    (by decide) (by decide) (by decide) (by decide) (by decide) (by decide)
    (by decide) (by decide) (by decide) (by decide)).1

/-- C2 counterexample: the claim includes `mediaSource` among the builders
whose output carries a literal `type` discriminant, but the object returned by
`mediaSource` has no `type` key at all. -/
theorem C2_counterexample_mediaSource_no_type :
    getField "type" (mediaSource
      { mimeType := .str "video/mp4", url := .str "https://x/y.mp4" }) = none := rfl

/-- C2 (amended): every element builder except `mediaSource` returns an object
carrying its literal `type` discriminant unconditionally; `mediaSource`
returns only `{mimeType, url}`, with no `type` key. -/
theorem C2_type_discriminants (emoji : EmojiConverter) (pt : TextBlockParams)
    (pim : ImageParams) (pm : MediaParams) (pms : MediaSourceParams)
    (pr : RichTextBlockParams) (ptr : TextRunParams) (u : UserIdentity)
    (us : List UserIdentity) :
    getField "type" (textBlock emoji pt) = some (.str "TextBlock")
    ∧ getField "type" (image pim) = some (.str "Image")
    ∧ getField "type" (media pm) = some (.str "Media")
    ∧ getField "type" (mediaSource pms) = none
    ∧ getField "type" (richTextBlock pr) = some (.str "RichTextBlock")
    ∧ getField "type" (textRun emoji ptr) = some (.str "TextRun")
    ∧ getField "type" (userIcon u) = some (.str "Component")
    ∧ getField "type" (userIconSet us) = some (.str "Component") :=
  ⟨rfl, rfl, rfl, rfl, rfl, rfl, rfl, rfl⟩

/-- C3: for a text that is not a nonempty string, the preprocessing is the
identity: the `text` field of both `textBlock` and `textRun` equals the input
unchanged, with neither the mention rewrite nor the emoji conversion
applied. -/
theorem C3_text_passthrough (emoji : EmojiConverter) (v : JSValue)
    (h : ∀ s : String, v = .str s → s = "") :
    getField "text" (textBlock emoji { text := v }) = some v
    ∧ getField "text" (textRun emoji { text := v }) = some v := by
  constructor
  · show some (prepareText emoji v) = some v
    rw [prepareText_passthrough emoji v h]
  · show some (prepareText emoji v) = some v
    rw [prepareText_passthrough emoji v h]

/-- C3 witness: `null` passes through. -/
theorem C3_text_passthrough_witness :
    getField "text" (textBlock (fun s => s) { text := JSValue.null })
      = some JSValue.null :=
  (C3_text_passthrough (fun s => s) .null (fun _ hs => JSValue.noConfusion hs)).1

/-- C4: a `textBlock` call omitting every optional field takes the documented
defaults (`wrap` true, `horizontalAlignment` "left", `style` "default",
`isSubtle` false, `separator` false, `isVisible` true), while fields with no
documented default remain `undefined`. -/
theorem C4_textBlock_defaults (emoji : EmojiConverter) (t : JSValue) :
    getField "wrap" (textBlock emoji { text := t }) = some (.bool true)
    ∧ getField "horizontalAlignment" (textBlock emoji { text := t }) = some (.str "left")
    ∧ getField "style" (textBlock emoji { text := t }) = some (.str "default")
    ∧ getField "isSubtle" (textBlock emoji { text := t }) = some (.bool false)
    ∧ getField "separator" (textBlock emoji { text := t }) = some (.bool false)
    ∧ getField "isVisible" (textBlock emoji { text := t }) = some (.bool true)
    ∧ getField "color" (textBlock emoji { text := t }) = some .undefined
    ∧ getField "fontType" (textBlock emoji { text := t }) = some .undefined
    ∧ getField "maxLines" (textBlock emoji { text := t }) = some .undefined
    ∧ getField "size" (textBlock emoji { text := t }) = some .undefined
    ∧ getField "weight" (textBlock emoji { text := t }) = some .undefined
    ∧ getField "height" (textBlock emoji { text := t }) = some .undefined
    ∧ getField "spacing" (textBlock emoji { text := t }) = some .undefined
    ∧ getField "id" (textBlock emoji { text := t }) = some .undefined :=
  ⟨rfl, rfl, rfl, rfl, rfl, rfl, rfl, rfl, rfl, rfl, rfl, rfl, rfl, rfl⟩

/-- C5: `image` always emits an `msTeams` field that is an object (never
`undefined`): `{allowExpand: true}` when `allowZoom` is `true`, `{}` when
`allowZoom` is `false` or omitted. -/
theorem C5_image_msTeams (p : ImageParams) :
    (∃ m, getField "msTeams" (image p) = some m ∧ m ≠ .undefined)
    ∧ (p.allowZoom = .bool true →
        getField "msTeams" (image p) = some (.obj [("allowExpand", .bool true)]))
    ∧ (p.allowZoom = .bool false ∨ p.allowZoom = .undefined →
        getField "msTeams" (image p) = some (.obj [])) := by
  have hms : getField "msTeams" (image p)
      = some (if truthy (orDefault p.allowZoom (.bool false))
              then JSValue.obj [("allowExpand", .bool true)] else .obj []) := rfl
  refine ⟨⟨_, hms, ?_⟩, ?_, ?_⟩
  · split
    · exact fun hh => JSValue.noConfusion hh
    · exact fun hh => JSValue.noConfusion hh
  · intro hz
    rw [hms, hz]
    rfl
  · intro hz
    rcases hz with hz | hz <;> rw [hms, hz] <;> rfl

/-- C5 witness: both concrete `allowZoom` settings. -/
theorem C5_image_msTeams_witness :
    getField "msTeams" (image { url := .str "u", allowZoom := .bool true })
      = some (.obj [("allowExpand", .bool true)])
    ∧ getField "msTeams" (image { url := .str "u" }) = some (.obj []) :=
  ⟨(C5_image_msTeams { url := .str "u", allowZoom := .bool true }).2.1 rfl,
   (C5_image_msTeams { url := .str "u" }).2.2 (Or.inr rfl)⟩

/-- C6: `userIconSet` returns the `"graph.microsoft.com/users"` component in
compact view, whose `properties.users` is the input sequence mapped
element-wise to `{id, displayName, userPrincipalName}`, order preserved, with
no deduplication and sub-fields passed through as-is. -/
theorem C6_userIconSet_shape (us : List UserIdentity) :
    getField "name" (userIconSet us) = some (.str "graph.microsoft.com/users")
    ∧ getField "view" (userIconSet us) = some (.str "compact")
    ∧ getField "type" (userIconSet us) = some (.str "Component")
    ∧ getField "properties" (userIconSet us)
        = some (.obj [("users", .arr (us.map renameUser))])
    ∧ (∀ u : UserIdentity, renameUser u
        = .obj [("id", u.id), ("displayName", u.name), ("userPrincipalName", u.email)])
    ∧ getField "properties" (userIconSet
        [{ id := .str "1", name := .str "A", email := .str "a@x.com" },
         { id := .str "2", name := .str "B", email := .str "b@x.com" }])
      = some (.obj [("users", .arr
          [.obj [("id", .str "1"), ("displayName", .str "A"),
                 ("userPrincipalName", .str "a@x.com")],
           .obj [("id", .str "2"), ("displayName", .str "B"),
                 ("userPrincipalName", .str "b@x.com")]])]) :=
  ⟨rfl, rfl, rfl, rfl, fun _ => rfl, rfl⟩

/-- C7: `mediaSource` returns exactly `{mimeType, url}`, with no extra
fields, for every input; in particular at the concrete example. -/
theorem C7_mediaSource_exact (p : MediaSourceParams) :
    mediaSource p = .obj [("mimeType", p.mimeType), ("url", p.url)]
    ∧ mediaSource { mimeType := .str "video/mp4", url := .str "https://x/y.mp4" }
      = .obj [("mimeType", .str "video/mp4"), ("url", .str "https://x/y.mp4")] :=
  ⟨rfl, rfl⟩

/-- C8: text preprocessing is applied exactly to the display-text fields of
`textBlock` and `textRun`; structural, URL and identifier fields of `image`,
`media` and `mediaSource` are emitted exactly equal to the supplied input
(`image.altText` stated for a supplied, non-`undefined` value, since an
omitted one takes the `"image"` default). -/
theorem C8_no_preprocessing_elsewhere (emoji : EmojiConverter)
    (pim : ImageParams) (pm : MediaParams) (pms : MediaSourceParams)
    (hAlt : pim.altText ≠ .undefined) :
    getField "url" (image pim) = some pim.url
    ∧ getField "altText" (image pim) = some pim.altText
    ∧ getField "id" (image pim) = some pim.id
    ∧ getField "altText" (media pm) = some pm.altText
    ∧ getField "poster" (media pm) = some pm.poster
    ∧ getField "url" (mediaSource pms) = some pms.url
    ∧ (∀ pt : TextBlockParams,
        getField "text" (textBlock emoji pt) = some (prepareText emoji pt.text))
    ∧ (∀ ptr : TextRunParams,
        getField "text" (textRun emoji ptr) = some (prepareText emoji ptr.text)) := by
  refine ⟨rfl, ?_, rfl, rfl, rfl, rfl, fun _ => rfl, fun _ => rfl⟩
  show some (orDefault pim.altText (.str "image")) = some pim.altText
  rw [orDefault_of_ne_undefined _ hAlt]

/-- C8 witness: a supplied `altText` is kept verbatim. -/
theorem C8_no_preprocessing_elsewhere_witness :
    getField "altText" (image { url := .str "https://x/y.png", altText := .str "alt @<x>" })
      = some (.str "alt @<x>") :=
  (C8_no_preprocessing_elsewhere (fun s => s)
    { url := .str "https://x/y.png", altText := .str "alt @<x>" } {} {}
    (fun hh => JSValue.noConfusion hh)).2.1

/-- C9: the mention rewrite tolerates several leading `<`: a text consisting
of `@`, two or more `<`, a capture run, and one or more `>` is replaced whole
by `<at>CONTENT</at>` where CONTENT is the run after the `<`; in particular
`"@<<Jane>>"` becomes `"<at>Jane</at>"`. -/
theorem C9_leading_angle_brackets (emoji : EmojiConverter) (hemoji : ∀ s, emoji s = s)
    (j k : Nat) (c : List Char) (hj : 2 ≤ j) (hk : 1 ≤ k)
    (hc : c ≠ []) (hcc : ∀ ch ∈ c, ch ≠ '>' ∧ ch ≠ '[')
    (hch : c.head? ≠ some '<') :
    getField "text" (textBlock emoji { text := .str ⟨mentionRun j c k⟩ })
      = some (.str ⟨atTag c⟩)
    ∧ getField "text" (textRun emoji { text := .str ⟨mentionRun j c k⟩ })
      = some (.str ⟨atTag c⟩)
    ∧ mentionRewrite "@<<Jane>>" = "<at>Jane</at>" := by
  have hcc' : ∀ ch ∈ c, isContentChar ch = true :=
    fun ch hm => isContentChar_of (hcc ch hm)
  have hne : mentionRun j c k ≠ ([] : List Char) := by simp [mentionRun]
  have hrw : rewriteAux (mentionRun j c k) = atTag c := by
    have h1 := rewriteAux_mention j k c [] (by omega) hk hc hcc' hch (by simp)
    simpa [rewriteAux_nil] using h1
  refine ⟨?_, ?_, by decide⟩
  · show some (prepareText emoji (.str ⟨mentionRun j c k⟩)) = _
    rw [prepareText_str emoji _ hne, hemoji]
    show some (JSValue.str ⟨rewriteAux (mentionRun j c k)⟩) = _
    rw [hrw]
  · show some (prepareText emoji (.str ⟨mentionRun j c k⟩)) = _
    rw [prepareText_str emoji _ hne, hemoji]
    show some (JSValue.str ⟨rewriteAux (mentionRun j c k)⟩) = _
    rw [hrw]

/-- C9 witness: `"@<<Jane>>"` with two leading `<` and two trailing `>`. -/
theorem C9_leading_angle_brackets_witness :
    getField "text" (textBlock (fun s => s) { text := .str ⟨mentionRun 2 ("Jane".data) 2⟩ })
      = some (.str ⟨atTag ("Jane".data)⟩) :=
  (C9_leading_angle_brackets (fun s => s) (fun _ => rfl) 2 2 ("Jane".data)
    (by decide) (by decide) (by decide) (by decide) (by decide)).1

/-- C10: a defaulted field keeps any explicitly supplied value other than
`undefined`, `null` and `false` included; the default applies exactly when
the supplied value is `undefined` (or the field is omitted, which is the
same thing for destructuring). -/
theorem C10_explicit_values_kept (emoji : EmojiConverter) (t v : JSValue)
    (hv : v ≠ .undefined) :
    getField "wrap" (textBlock emoji { text := t, wrap := v }) = some v
    ∧ getField "wrap" (textBlock emoji { text := t, wrap := .null }) = some .null
    ∧ getField "wrap" (textBlock emoji { text := t, wrap := .bool false }) = some (.bool false)
    ∧ getField "wrap" (textBlock emoji { text := t, wrap := .undefined }) = some (.bool true)
    ∧ getField "separator" (image { separator := v }) = some v
    ∧ getField "isVisible" (image { isVisible := .null }) = some .null := by
  refine ⟨?_, rfl, rfl, rfl, ?_, rfl⟩
  · show some (orDefault v (.bool true)) = some v
    rw [orDefault_of_ne_undefined _ hv]
  · show some (orDefault v (.bool false)) = some v
    rw [orDefault_of_ne_undefined _ hv]

/-- C10 witness: an explicit `false` is kept instead of the `true` default. -/
theorem C10_explicit_values_kept_witness :
    getField "wrap" (textBlock (fun s => s) { text := .str "x", wrap := .bool false })
      = some (.bool false) :=
  (C10_explicit_values_kept (fun s => s) (.str "x") (.bool false)
    (fun hh => JSValue.noConfusion hh)).1

end TeamsViewBuilder

